import Mathlib

/-
Verification of the kube-mcp operator's reconciliation and aggregation engine.

Strings are modelled as `List Char` (Python `str`).  Each definition is a
shallow embedding of a function of the source repository; the source location
is given in the doc comment.  Cluster state (service existence, listed custom
resources, deployment read-back) is passed as an explicit environment, and
wall-clock time is passed as an explicit `now` argument, so every reconciler
is a pure function.
-/

/-- Convert a Lean string literal to the `List Char` representation used
throughout this development. -/
def chars (s : String) : List Char := s.data

/-- The `___PROTO___` placeholder used by the single-tool endpoint cleanup
in `src/controllers/mcptool_controller.py` (line 140). -/
def PL : List Char := ['_', '_', '_', 'P', 'R', 'O', 'T', 'O', '_', '_', '_']

/-- ASCII whitespace recognised by Python's `str.strip()` (restricted to the
ASCII range, which is all the CRD fields can carry). -/
def isSpaceChar (c : Char) : Bool :=
  c = ' ' || c = '\t' || c = '\n' || c = '\x0d' || c = '\x0b' || c = '\x0c'

/-- Python `s.strip()`: drop whitespace from both ends. -/
def pyStrip (s : List Char) : List Char :=
  ((s.dropWhile isSpaceChar).reverse.dropWhile isSpaceChar).reverse

/-- Code-point lexicographic comparison of strings, as Python `sorted` uses. -/
def lexLe : List Char → List Char → Bool
  | [], _ => true
  | _ :: _, [] => false
  | x :: xs, y :: ys => if x < y then true else if y < x then false else lexLe xs ys

/-- Insert into a `lexLe`-sorted list. -/
def insertSorted (x : List Char) : List (List Char) → List (List Char)
  | [] => [x]
  | y :: ys => if lexLe x y then x :: y :: ys else y :: insertSorted x ys

/-- Sort a list of names lexicographically (Python `sorted`). -/
def sortNames : List (List Char) → List (List Char)
  | [] => []
  | x :: xs => insertSorted x (sortNames xs)

/-- Decimal rendering of a natural number, as Python string formatting does. -/
def natChars (n : Nat) : List Char := (Nat.repr n).data

/-- One state-machine step of run collapsing: `prev` records whether the
previously emitted character was a slash.  `dedupSlash false s` collapses
every maximal run of consecutive slashes in `s` to a single slash. -/
def dedupSlash : Bool → List Char → List Char
  | _, [] => []
  | prev, c :: rest =>
      if c = '/' then
        if prev then dedupSlash true rest else '/' :: dedupSlash true rest
      else c :: dedupSlash false rest

/-- One global pass of Python `s.replace("//", "/")`: leftmost,
non-overlapping. -/
def step : List Char → List Char
  | [] => []
  | [c] => [c]
  | c :: d :: rest =>
      if c = '/' ∧ d = '/' then '/' :: step rest else c :: step (d :: rest)

/-- Python `"//" in s`. -/
def hasDbl : List Char → Bool
  | [] => false
  | [_] => false
  | c :: d :: rest => if c = '/' ∧ d = '/' then true else hasDbl (d :: rest)

/-- The `while "//" in resolved: resolved = resolved.replace("//", "/")` loop
of `mcptool_controller.py` lines 141-142, with an explicit fuel bound.  Each
effective iteration strictly shortens the string, so fuel equal to the
string's length is enough for the loop to reach its fixed point. -/
def loopN : Nat → List Char → List Char
  | 0, s => s
  | n + 1, s => if hasDbl s then loopN n (step s) else s

/-- Python `s.replace("://", "___PROTO___")` (leftmost, non-overlapping),
from `mcptool_controller.py` line 140. -/
def protect : List Char → List Char
  | [] => []
  | [c] => [c]
  | [c, d] => [c, d]
  | c :: d :: e :: rest =>
      if c = ':' ∧ d = '/' ∧ e = '/' then PL ++ protect rest
      else c :: protect (d :: e :: rest)

/-- Fueled scan implementing Python `s.replace("___PROTO___", "://")`
(leftmost, non-overlapping): at each position, an 11-character prefix equal
to the placeholder is replaced and the scan continues after it, otherwise
the scan advances one character.  Every step consumes at least one
character, so fuel equal to the input length suffices. -/
def restoreF : Nat → List Char → List Char
  | 0, s => s
  | _ + 1, [] => []
  | fuel + 1, c :: rest =>
      if (c :: rest).take 11 = PL then ':' :: '/' :: '/' :: restoreF fuel ((c :: rest).drop 11)
      else c :: restoreF fuel rest

/-- Python `s.replace("___PROTO___", "://")`, from `mcptool_controller.py`
line 143. -/
def restore (s : List Char) : List Char := restoreF s.length s

/-- The single-tool endpoint cleanup of `mcptool_controller.py` lines
140-143: substitute a placeholder for `://`, collapse double slashes until
none remain, then restore the placeholder. -/
def collapseResolve (s : List Char) : List Char :=
  restore (loopN (protect s).length (protect s))

/-- Declarative statement of slash collapsing that protects EVERY occurrence
of the `://` separator: scan left to right, copy each `://` verbatim, and
collapse every other maximal run of slashes to a single slash (`prev`
records whether the previous emitted character was a collapsible slash). -/
def protoAux : Bool → List Char → List Char
  | prev, c :: d :: e :: rest =>
      if c = ':' ∧ d = '/' ∧ e = '/' then ':' :: '/' :: '/' :: protoAux false rest
      else if c = '/' then
        (if prev then protoAux true (d :: e :: rest)
         else '/' :: protoAux true (d :: e :: rest))
      else c :: protoAux false (d :: e :: rest)
  | prev, s => dedupSlash prev s

/-- Declarative statement of the SPEC's wording for claim C4: collapse every
run of consecutive slashes, protecting exactly the FIRST occurrence of
`://` (and no later occurrence).  `found` records whether the first `://`
has already been passed. -/
def protectFirstAux : Bool → Bool → List Char → List Char
  | found, prev, c :: d :: e :: rest =>
      if ¬found ∧ c = ':' ∧ d = '/' ∧ e = '/' then
        ':' :: '/' :: '/' :: protectFirstAux true false rest
      else if c = '/' then
        (if prev then protectFirstAux found true (d :: e :: rest)
         else '/' :: protectFirstAux found true (d :: e :: rest))
      else c :: protectFirstAux found false (d :: e :: rest)
  | _, prev, s => dedupSlash prev s

/-- Spec-modelled collapse protecting only the first `://`. -/
def protectFirstCollapse (s : List Char) : List Char := protectFirstAux false false s

/-- Cluster-DNS endpoint construction of `K8sClient.get_service_endpoint`
(`src/utils/k8s_client.py` line 64):
`http://{name}.{namespace}.svc.cluster.local:{port}`. -/
def serviceEndpoint (name nspace : List Char) (port : Nat) : List Char :=
  chars "http://" ++ name ++ chars "." ++ nspace ++ chars ".svc.cluster.local:" ++ natChars port

/-- Python `x or default` on an optional string field: `None` and the empty
string both fall back to the default (used for `service.namespace or
namespace`). -/
def effectiveNs (o : Option (List Char)) (nspace : List Char) : List Char :=
  match o with
  | some n => if n = [] then nspace else n
  | none => nspace

/-!  ## Data model (src/models/crds.py) and the per-kind reconcilers  -/

/-- A parsed `ServiceReference` (`crds.py` lines 15-21).  `nspace` models the
optional `namespace` field; `port` and `path` carry the schema-validated
values. -/
structure ServiceRefM where
  name : List Char
  nspace : Option (List Char)
  port : Nat
  path : List Char
deriving DecidableEq

/-- A parsed `ToolEntry` of a multi-tool MCPTool (`crds.py` lines 101-108). -/
structure ToolEntryM where
  name : List Char
  path : List Char
deriving DecidableEq

/-- A parsed `MCPToolSpec` (`crds.py` lines 111-125), restricted to the
fields the reconcilers read. -/
structure MCPToolSpecM where
  name : Option (List Char)
  service : ServiceRefM
  tools : Option (List ToolEntryM)
deriving DecidableEq

/-- Truthiness of an optional string (Python: `None` and `""` are falsy). -/
def truthyOptStr : Option (List Char) → Bool
  | some s => s ≠ []
  | none => false

/-- Truthiness of an optional list (Python: `None` and `[]` are falsy). -/
def truthyOptList {α : Type} : Option (List α) → Bool
  | some l => !l.isEmpty
  | none => false

/-- `MCPToolSpec.validate_tool_mode` (`crds.py` lines 127-137): returns
`true` when the model validator accepts, `false` when it raises.  The two
guards use Python truthiness of `self.name` and `self.tools`. -/
def validateToolMode (name : Option (List Char)) (tools : Option (List ToolEntryM)) : Bool :=
  if truthyOptStr name && truthyOptList tools then false
  else if !truthyOptStr name && !truthyOptList tools then false
  else true

/-- Environment a Tool/Prompt/Resource reconciler sees: which services exist
(`K8sClient.get_service` answered by name and namespace) and which
MCPServer objects live in the namespace (what
`_trigger_mcpserver_reconciliation` would list and patch). -/
structure TriggerEnv where
  svcExists : List Char → List Char → Bool
  servers : List (List Char)

/-- Status written by the MCPTool reconciler, plus `serverPatches`: the
MCPServer objects that received the cross-resource trigger annotation patch
during this pass (empty when the trigger is not invoked). -/
structure ToolStatus where
  ready : Bool
  resolvedEndpoint : Option (List Char)
  reason : List Char
  serverPatches : List (List Char)
deriving DecidableEq

/-- `_reconcile_mcptool_inner` (`mcptool_controller.py` lines 82-159).
On a missing service it stops with `ServiceNotFound`; otherwise it resolves
the endpoint (bare base endpoint in multi-tool mode, path appended and
slash-collapsed in single-tool mode), writes a success status and invokes
the cross-resource trigger. -/
def reconcileMCPTool (env : TriggerEnv) (spec : MCPToolSpecM) (nspace : List Char) : ToolStatus :=
  let sns := effectiveNs spec.service.nspace nspace
  if env.svcExists spec.service.name sns then
    let base := serviceEndpoint spec.service.name sns spec.service.port
    let resolved :=
      match spec.tools with
      | some (_ :: _) => base
      | _ => collapseResolve (base ++ spec.service.path)
    { ready := true, resolvedEndpoint := some resolved,
      reason := chars "ServiceResolved", serverPatches := env.servers }
  else
    { ready := false, resolvedEndpoint := none,
      reason := chars "ServiceNotFound", serverPatches := [] }

/-- The character class `[a-zA-Z0-9_]` of the template-variable pattern. -/
def isWordChar (c : Char) : Bool :=
  ('a' ≤ c && c ≤ 'z') || ('A' ≤ c && c ≤ 'Z') || ('0' ≤ c && c ≤ '9') || c = '_'

/-- Fueled scan implementing Python
`re.findall(r"\x7b\x7b([a-zA-Z0-9_]+)\x7d\x7d", template)`: at each
position try to match two opening braces, a non-empty word-character run and
two closing braces; on success record the name and continue after the match,
otherwise advance one character.  Every step consumes at least one character
of the remaining input, so fuel equal to the input length suffices. -/
def extractVarsF : Nat → List Char → List (List Char)
  | 0, _ => []
  | fuel + 1, s =>
      match s with
      | '{' :: '{' :: rest =>
          let nm := rest.takeWhile isWordChar
          let rem := rest.dropWhile isWordChar
          if nm ≠ [] ∧ rem.take 2 = ['}', '}'] then
            nm :: extractVarsF fuel (rem.drop 2)
          else
            extractVarsF fuel ('{' :: rest)
      | _ :: rest => extractVarsF fuel rest
      | [] => []

/-- `_extract_template_variables` (`mcpprompt_controller.py` lines 48-60),
as the list of matches in order (the Python code builds a set from it). -/
def extractTemplateVariables (s : List Char) : List (List Char) :=
  extractVarsF s.length s

/-- A declared prompt variable (`crds.py` lines 154-160); only `name` is
read by the reconciler. -/
structure PromptVarM where
  name : List Char
deriving DecidableEq

/-- A parsed `MCPPromptSpec` (`crds.py` lines 163-170), restricted to the
fields the reconciler reads. -/
structure MCPPromptSpecM where
  name : List Char
  template : List Char
  vars : List PromptVarM
deriving DecidableEq

/-- Status written by the MCPPrompt reconciler (with the trigger trace). -/
structure PromptStatus where
  validated : Bool
  reason : List Char
  message : List Char
  serverPatches : List (List Char)
deriving DecidableEq

/-- Comma-space join, Python `", ".join(...)`. -/
def joinCommaSpace (l : List (List Char)) : List Char :=
  List.intercalate (chars ", ") l

/-- `_reconcile_mcpprompt_inner` (`mcpprompt_controller.py` lines 95-158):
extract template variables, compare with the declared set, report
undeclared variables first (sorted, comma-joined), then unused variables,
else success.  The create/update path never invokes the cross-resource
trigger, so `serverPatches` is always empty. -/
def reconcileMCPPrompt (spec : MCPPromptSpecM) : PromptStatus :=
  let tv := extractTemplateVariables spec.template
  let dv := spec.vars.map (fun v => v.name)
  let undeclared := tv.filter (fun v => !(dv.contains v))
  if undeclared ≠ [] then
    { validated := false, reason := chars "UndeclaredVariables",
      message := chars "Template uses undeclared variables: " ++
        joinCommaSpace (sortNames undeclared.dedup),
      serverPatches := [] }
  else
    let unused := dv.filter (fun v => !(tv.contains v))
    if unused ≠ [] then
      { validated := false, reason := chars "UnusedVariables",
        message := chars "Declared variables not used in template: " ++
          joinCommaSpace (sortNames unused.dedup),
        serverPatches := [] }
    else
      { validated := true, reason := chars "TemplateValid",
        message := chars "Template and variables validated successfully",
        serverPatches := [] }

/-- Parsed `InlineContent` (`crds.py` lines 204-210). -/
structure InlineContentM where
  uri : List Char
  text : Option (List Char)
  blob : Option (List Char)
deriving DecidableEq

/-- Parsed `ResourceOperation` (`crds.py` lines 195-201), restricted to the
service reference the reconciler reads. -/
structure ResourceOperationM where
  service : ServiceRefM
deriving DecidableEq

/-- Parsed `MCPResourceSpec` (`crds.py` lines 213-219), restricted to the
fields the reconciler reads. -/
structure MCPResourceSpecM where
  name : List Char
  operations : Option (List ResourceOperationM)
  content : Option InlineContentM
deriving DecidableEq

/-- Status written by the MCPResource reconciler.  `hasCondition` is false
only on the defensive fall-through (`mcpresource_controller.py` lines
171-175) that writes an empty `conditions` list; `lookups` records the
`get_service` calls made, in order; `serverPatches` records cross-resource
trigger patches (always empty on this create/update path). -/
structure ResourceStatus where
  ready : Bool
  operationCount : Nat
  hasCondition : Bool
  reason : List Char
  message : List Char
  lookups : List (List Char × List Char)
  serverPatches : List (List Char)
deriving DecidableEq

/-- The operation-validation loop (`mcpresource_controller.py` lines
136-155): look services up in order; the first miss short-circuits.
Returns the lookups performed and the first failing (name, namespace), if
any. -/
def checkOpsLoop (env : TriggerEnv) (nspace : List Char) :
    List ResourceOperationM → List (List Char × List Char) × Option (List Char × List Char)
  | [] => ([], none)
  | op :: rest =>
      let sns := effectiveNs op.service.nspace nspace
      if env.svcExists op.service.name sns then
        let r := checkOpsLoop env nspace rest
        ((op.service.name, sns) :: r.1, r.2)
      else
        ([(op.service.name, sns)], some (op.service.name, sns))

/-- Python truthiness of `content.text`/`content.blob` combined with the
non-empty-after-strip check (`mcpresource_controller.py` lines 99-100). -/
def truthyStripped : Option (List Char) → Bool
  | some t => pyStrip t ≠ []
  | none => false

/-- `reconcile_mcpresource` (`mcpresource_controller.py` lines 53-175):
neither field → `InvalidSpec`; inline content present → validate only the
content (operations ignored, no lookups); a truthy operations list →
resolve every operation's service in order with short-circuit on the first
miss; a present-but-empty operations list falls through to the defensive
tail that writes `ready=false` with an empty condition list. -/
def reconcileMCPResource (env : TriggerEnv) (spec : MCPResourceSpecM) (nspace : List Char) :
    ResourceStatus :=
  let opCount := (spec.operations.getD []).length
  if spec.operations = none ∧ spec.content = none then
    { ready := false, operationCount := 0, hasCondition := true,
      reason := chars "InvalidSpec",
      message := chars "Resource must have either operations or content defined",
      lookups := [], serverPatches := [] }
  else
    match spec.content with
    | some c =>
        if truthyStripped c.text || truthyStripped c.blob then
          { ready := true, operationCount := 0, hasCondition := true,
            reason := chars "ContentValid",
            message := chars "Inline content validated successfully",
            lookups := [], serverPatches := [] }
        else
          { ready := false, operationCount := 0, hasCondition := true,
            reason := chars "EmptyContent",
            message := chars "Inline content is empty (no text or blob data)",
            lookups := [], serverPatches := [] }
    | none =>
        match spec.operations with
        | some (op :: ops) =>
            let r := checkOpsLoop env nspace (op :: ops)
            match r.2 with
            | none =>
                { ready := true, operationCount := opCount, hasCondition := true,
                  reason := chars "OperationsValid",
                  message := chars "All " ++ natChars opCount ++
                    chars " operation(s) validated successfully",
                  lookups := r.1, serverPatches := [] }
            | some fk =>
                { ready := false, operationCount := opCount, hasCondition := true,
                  reason := chars "ServiceNotFound",
                  message := chars "Service " ++ fk.1 ++
                    chars " not found in namespace " ++ fk.2,
                  lookups := r.1, serverPatches := [] }
        | _ =>
            { ready := false, operationCount := 0, hasCondition := false,
              reason := [], message := [], lookups := [], serverPatches := [] }

/-!  ## Label-selector string construction (src/utils/k8s_client.py)  -/

/-- A raw `matchExpressions` entry as `_selector_to_dict` hands it to the
client: `values` may be `None`. -/
structure LabelExprM where
  key : List Char
  op : List Char
  values : Option (List (List Char))
deriving DecidableEq

/-- The `matchLabels` loop of `K8sClient._build_label_selector_string`
(`k8s_client.py` lines 157-159): each entry renders as `key=value`, in
insertion order. -/
def labelParts : List (List Char × List Char) → List (List Char)
  | [] => []
  | (k, v) :: rest => (k ++ chars "=" ++ v) :: labelParts rest

/-- The `matchExpressions` loop of `_build_label_selector_string`
(`k8s_client.py` lines 162-175).  `In`/`NotIn` join their values with
commas; joining a `None` values list raises in Python, modelled as `none`;
an unrecognised operator contributes nothing. -/
def exprParts : List LabelExprM → Option (List (List Char))
  | [] => some []
  | e :: rest =>
      if e.op = chars "In" then
        match e.values with
        | some vs =>
            (fun ps => (e.key ++ chars " in (" ++ List.intercalate (chars ",") vs ++ chars ")") :: ps)
              <$> exprParts rest
        | none => none
      else if e.op = chars "NotIn" then
        match e.values with
        | some vs =>
            (fun ps => (e.key ++ chars " notin (" ++ List.intercalate (chars ",") vs ++ chars ")") :: ps)
              <$> exprParts rest
        | none => none
      else if e.op = chars "Exists" then
        (fun ps => e.key :: ps) <$> exprParts rest
      else if e.op = chars "DoesNotExist" then
        (fun ps => (chars "!" ++ e.key) :: ps) <$> exprParts rest
      else
        exprParts rest

/-- `K8sClient._build_label_selector_string` (`k8s_client.py` lines
145-177): all fragments joined with commas. -/
def buildLabelSelectorString (labels : List (List Char × List Char)) (exprs : List LabelExprM) :
    Option (List Char) :=
  (exprParts exprs).map fun ps => List.intercalate (chars ",") (labelParts labels ++ ps)

/-- Rendering of one `matchExpressions` entry exactly as the spec describes
it (claim C8): `key in (v1,v2,...)`, `key notin (...)`, bare `key`, or
`!key`. -/
def renderExprSpec (e : LabelExprM) : List Char :=
  if e.op = chars "In" then
    e.key ++ chars " in (" ++ List.intercalate (chars ",") (e.values.getD []) ++ chars ")"
  else if e.op = chars "NotIn" then
    e.key ++ chars " notin (" ++ List.intercalate (chars ",") (e.values.getD []) ++ chars ")"
  else if e.op = chars "Exists" then
    e.key
  else
    chars "!" ++ e.key

/-!  ## MCPServer aggregation (src/controllers/mcpserver_controller.py)  -/

/-- A raw (unvalidated) service-reference dict as the MCPServer aggregator
reads it from a listed MCPTool custom resource: every key may be absent. -/
structure RawServiceRef where
  name : Option (List Char)
  nspace : Option (List Char)
  port : Option Nat
  path : Option (List Char)
deriving DecidableEq

/-- A raw entry of a multi-tool MCPTool's `tools` list. -/
structure RawToolEntry where
  name : Option (List Char)
  path : Option (List Char)
  inputSchema : Option (List Char)
deriving DecidableEq

/-- A raw MCPTool spec as listed by the MCPServer reconciler (the
`inputSchema` blob is carried opaquely). -/
structure RawToolSpec where
  name : Option (List Char)
  service : RawServiceRef
  inputSchema : Option (List Char)
  tools : Option (List RawToolEntry)
deriving DecidableEq

/-- A resolved `tools.json` entry `{name, endpoint, inputSchema}`. -/
structure ToolOut where
  name : Option (List Char)
  endpoint : List Char
  inputSchema : Option (List Char)
deriving DecidableEq

/-- `_resolve_tool_entry` (`mcpserver_controller.py` lines 47-79): the path
defaults to `/`, the namespace falls back to the MCPServer's namespace, and
an entry is produced only when the service name and port are truthy and the
endpoint resolves (service exists); otherwise `None`. -/
def resolveToolEntry (svcExists : List Char → List Char → Bool) (nspace : List Char)
    (toolName : Option (List Char)) (ref : RawServiceRef) (schema : Option (List Char)) :
    Option ToolOut :=
  let svcPath := ref.path.getD (chars "/")
  let svcNs := effectiveNs ref.nspace nspace
  match ref.name, ref.port with
  | some nm, some pt =>
      if nm ≠ [] ∧ pt ≠ 0 then
        if svcExists nm svcNs then
          some { name := toolName, endpoint := serviceEndpoint nm svcNs pt ++ svcPath,
                 inputSchema := schema }
        else none
      else none
  | _, _ => none

/-- The inner multi-tool loop of `_reconcile_mcpserver_inner`
(`mcpserver_controller.py` lines 202-213): one `_resolve_tool_entry` call
per `tools[]` element, with the shared service block and the entry's own
path, appending resolved entries to the accumulator. -/
def multiToolEntries (svcExists : List Char → List Char → Bool) (nspace : List Char)
    (ref : RawServiceRef) (acc : List ToolOut) : List RawToolEntry → List ToolOut
  | [] => acc
  | te :: rest =>
      match resolveToolEntry svcExists nspace te.name
          { ref with path := some (te.path.getD (chars "/")) } te.inputSchema with
      | some entry => multiToolEntries svcExists nspace ref (acc ++ [entry]) rest
      | none => multiToolEntries svcExists nspace ref acc rest

/-- The `tools_data` aggregation loop of `_reconcile_mcpserver_inner`
(`mcpserver_controller.py` lines 197-224): a truthy `tools` list goes
through the multi-tool expansion, otherwise single-tool resolution. -/
def aggregateTools (svcExists : List Char → List Char → Bool) (nspace : List Char)
    (acc : List ToolOut) : List RawToolSpec → List ToolOut
  | [] => acc
  | ts :: rest =>
      let acc' :=
        match ts.tools with
        | some (e :: es) => multiToolEntries svcExists nspace ts.service acc (e :: es)
        | _ =>
            match resolveToolEntry svcExists nspace ts.name ts.service ts.inputSchema with
            | some entry => acc ++ [entry]
            | none => acc
      aggregateTools svcExists nspace acc' rest

/-- A raw MCPPrompt spec as listed by the MCPServer reconciler (its raw
`variables` entries are carried opaquely). -/
structure RawPromptSpec where
  name : Option (List Char)
  template : Option (List Char)
  variableBlobs : Option (List (List Char))
deriving DecidableEq

/-- A `prompts.json` entry `{name, template, variables}`
(`mcpserver_controller.py` lines 228-236). -/
structure PromptOut where
  name : Option (List Char)
  template : Option (List Char)
  variableBlobs : List (List Char)
deriving DecidableEq

/-- A raw MCPResource spec as listed by the MCPServer reconciler (`content`
and `operations` are passed through verbatim, carried opaquely). -/
structure RawResourceSpec where
  name : Option (List Char)
  content : Option (List Char)
  operations : Option (List Char)
deriving DecidableEq

/-- A `resources.json` entry `{name, content, operations}`
(`mcpserver_controller.py` lines 238-247). -/
structure ResourceOut where
  name : Option (List Char)
  content : Option (List Char)
  operations : Option (List Char)
deriving DecidableEq

/-- A condition dict as built by `_create_condition`. -/
structure CondOut where
  type : List Char
  status : List Char
  lastTransitionTime : List Char
  reason : List Char
  message : List Char
deriving DecidableEq

/-- `_create_condition` (`mcpserver_controller.py` lines 21-44) with the
wall-clock timestamp passed explicitly. -/
def mkCondition (type status reason message now : List Char) : CondOut :=
  { type := type, status := status, lastTransitionTime := now,
    reason := reason, message := message }

/-- The dependency state one MCPServer reconciliation pass observes: the
service-existence oracle, the three label-selected object lists, and the
Deployment's reported `readyReplicas` (none when the deployment or its
status is absent). -/
structure MCPServerEnv where
  svcExists : List Char → List Char → Bool
  tools : List RawToolSpec
  prompts : List RawPromptSpec
  resources : List RawResourceSpec
  deployReadyReplicas : Option Nat

/-- Everything `_reconcile_mcpserver_inner` produces that claims C1/C9
mention: the three ConfigMap JSON arrays (kept as structured lists;
`json.dumps` is a deterministic injective serialisation of them) and the
status patch. -/
structure ServerOut where
  toolsJson : List ToolOut
  promptsJson : List PromptOut
  resourcesJson : List ResourceOut
  readyReplicas : Nat
  toolCount : Nat
  promptCount : Nat
  resourceCount : Nat
  condition : CondOut

/-- `_reconcile_mcpserver_inner` (`mcpserver_controller.py` lines 145-425),
restricted to ConfigMap aggregation and status computation: aggregate
tools (both modes), pass prompts and resources through, read the
Deployment's `readyReplicas` (0 when absent), emit one Ready condition and
the four counters. -/
def reconcileMCPServer (env : MCPServerEnv) (nspace : List Char) (now : List Char) : ServerOut :=
  let toolsData := aggregateTools env.svcExists nspace [] env.tools
  let promptsData := env.prompts.map fun p =>
    ({ name := p.name, template := p.template, variableBlobs := p.variableBlobs.getD [] } : PromptOut)
  let resourcesData := env.resources.map fun r =>
    ({ name := r.name, content := r.content, operations := r.operations } : ResourceOut)
  let readyReplicas := env.deployReadyReplicas.getD 0
  let cond :=
    if 0 < readyReplicas then
      mkCondition (chars "Ready") (chars "True") (chars "DeploymentReady")
        (chars "Deployment has " ++ natChars readyReplicas ++ chars " ready replica(s)") now
    else
      mkCondition (chars "Ready") (chars "False") (chars "DeploymentNotReady")
        (chars "Deployment has no ready replicas") now
  { toolsJson := toolsData, promptsJson := promptsData, resourcesJson := resourcesData,
    readyReplicas := readyReplicas, toolCount := toolsData.length,
    promptCount := env.prompts.length, resourceCount := env.resources.length,
    condition := cond }

/-- A condition with its timestamp erased, for comparing two reconciliation
passes "apart from timestamp fields". -/
def eraseTime (c : CondOut) : CondOut :=
  { c with lastTransitionTime := [] }

/-- Functional characterisation of the `tools.json` entries one listed
MCPTool contributes: multi-tool expansion over `tools[]` (shared service
block, per-entry path), or the single entry of single-tool resolution. -/
def toolEntriesOf (svcExists : List Char → List Char → Bool) (nspace : List Char)
    (ts : RawToolSpec) : List ToolOut :=
  match ts.tools with
  | some (e :: es) =>
      (e :: es).filterMap fun te =>
        resolveToolEntry svcExists nspace te.name
          { ts.service with path := some (te.path.getD (chars "/")) } te.inputSchema
  | _ => (resolveToolEntry svcExists nspace ts.name ts.service ts.inputSchema).toList

/-!  ## Helper lemmas  -/

theorem truthyStripped_iff (o : Option (List Char)) :
    truthyStripped o = true ↔ ∃ t, o = some t ∧ pyStrip t ≠ [] := by
  cases o <;> simp [truthyStripped]

theorem reconcileMCPPrompt_patches_nil (spec : MCPPromptSpecM) :
    (reconcileMCPPrompt spec).serverPatches = [] := by
  simp only [reconcileMCPPrompt]
  split
  · rfl
  · split <;> rfl

theorem reconcileMCPResource_patches_nil (env : TriggerEnv) (spec : MCPResourceSpecM)
    (nspace : List Char) : (reconcileMCPResource env spec nspace).serverPatches = [] := by
  simp only [reconcileMCPResource]
  split
  · rfl
  · split
    · split <;> rfl
    · split
      · split <;> rfl
      · rfl

theorem checkOpsLoop_spec (env : TriggerEnv) (nspace : List Char)
    (l : List ResourceOperationM) :
    (checkOpsLoop env nspace l).1 =
      ((l.takeWhile fun op => env.svcExists op.service.name (effectiveNs op.service.nspace nspace)) ++
        (l.dropWhile fun op =>
          env.svcExists op.service.name (effectiveNs op.service.nspace nspace)).take 1).map
        (fun op => (op.service.name, effectiveNs op.service.nspace nspace)) ∧
    ((checkOpsLoop env nspace l).2 = none ↔
      ∀ op ∈ l, env.svcExists op.service.name (effectiveNs op.service.nspace nspace) = true) := by
  induction l with
  | nil => simp [checkOpsLoop]
  | cons op rest ih =>
      by_cases h : env.svcExists op.service.name (effectiveNs op.service.nspace nspace) = true
      · constructor
        · simp [checkOpsLoop, h, List.takeWhile_cons, List.dropWhile_cons, ih.1]
        · simp [checkOpsLoop, h, ih.2]
      · have h' : env.svcExists op.service.name (effectiveNs op.service.nspace nspace) = false :=
          Bool.eq_false_iff.mpr h
        constructor
        · simp [checkOpsLoop, h', List.takeWhile_cons, List.dropWhile_cons]
        · simp [checkOpsLoop, h', h]

theorem labelParts_eq_map (l : List (List Char × List Char)) :
    labelParts l = l.map fun kv => kv.1 ++ chars "=" ++ kv.2 := by
  induction l with
  | nil => rfl
  | cons kv rest ih => cases kv; simp [labelParts, ih]

theorem exprParts_eq (exprs : List LabelExprM)
    (h : ∀ e ∈ exprs,
      (e.op = chars "In" ∨ e.op = chars "NotIn" ∨ e.op = chars "Exists" ∨
        e.op = chars "DoesNotExist") ∧
      ((e.op = chars "In" ∨ e.op = chars "NotIn") → e.values ≠ none)) :
    exprParts exprs = some (exprs.map renderExprSpec) := by
  induction exprs with
  | nil => rfl
  | cons e rest ih =>
      have he := h e (List.mem_cons_self _ _)
      have hrest := ih fun e' he' => h e' (List.mem_cons_of_mem _ he')
      have d1 : chars "NotIn" ≠ chars "In" := by decide
      have d2 : chars "Exists" ≠ chars "In" := by decide
      have d3 : chars "Exists" ≠ chars "NotIn" := by decide
      have d4 : chars "DoesNotExist" ≠ chars "In" := by decide
      have d5 : chars "DoesNotExist" ≠ chars "NotIn" := by decide
      have d6 : chars "DoesNotExist" ≠ chars "Exists" := by decide
      rcases he.1 with h1 | h2 | h3 | h4
      · obtain ⟨vs, hvs⟩ := Option.ne_none_iff_exists'.mp (he.2 (Or.inl h1))
        simp [exprParts, renderExprSpec, h1, hvs, hrest]
      · obtain ⟨vs, hvs⟩ := Option.ne_none_iff_exists'.mp (he.2 (Or.inr h2))
        simp [exprParts, renderExprSpec, h2, hvs, hrest, d1]
      · simp [exprParts, renderExprSpec, h3, hrest, d2, d3]
      · simp [exprParts, renderExprSpec, h4, hrest, d4, d5, d6]

theorem multiToolEntries_eq (svcE : List Char → List Char → Bool) (nspace : List Char)
    (ref : RawServiceRef) (l : List RawToolEntry) :
    ∀ acc, multiToolEntries svcE nspace ref acc l =
      acc ++ l.filterMap fun te =>
        resolveToolEntry svcE nspace te.name
          { ref with path := some (te.path.getD (chars "/")) } te.inputSchema := by
  induction l with
  | nil => intro acc; simp [multiToolEntries]
  | cons te rest ih =>
      intro acc
      cases hr : resolveToolEntry svcE nspace te.name
          { ref with path := some (te.path.getD (chars "/")) } te.inputSchema with
      | some entry => simp [multiToolEntries, hr, ih]
      | none => simp [multiToolEntries, hr, ih]

theorem aggregateTools_eq (svcE : List Char → List Char → Bool) (nspace : List Char)
    (crs : List RawToolSpec) :
    ∀ acc, aggregateTools svcE nspace acc crs = acc ++ crs.flatMap (toolEntriesOf svcE nspace) := by
  induction crs with
  | nil => intro acc; simp [aggregateTools]
  | cons ts rest ih =>
      intro acc
      have hsplit : (match ts.tools with
          | some (e :: es) => multiToolEntries svcE nspace ts.service acc (e :: es)
          | _ =>
              match resolveToolEntry svcE nspace ts.name ts.service ts.inputSchema with
              | some entry => acc ++ [entry]
              | none => acc) = acc ++ toolEntriesOf svcE nspace ts := by
        cases hts : ts.tools with
        | none =>
            cases hr : resolveToolEntry svcE nspace ts.name ts.service ts.inputSchema <;>
              simp [toolEntriesOf, hts, hr]
        | some l =>
            cases l with
            | nil =>
                cases hr : resolveToolEntry svcE nspace ts.name ts.service ts.inputSchema <;>
                  simp [toolEntriesOf, hts, hr]
            | cons e es => simp [toolEntriesOf, hts, multiToolEntries_eq]
      simp only [aggregateTools, hsplit, ih]
      simp

/-!  ## Claim theorems  -/

/-- C9: reconciling the same MCPServer spec twice against an unchanged
dependency state (same listed tools/prompts/resources and the same
service-existence answers) produces identical ConfigMap data (tools.json,
prompts.json, resources.json) and an identical status patch, apart from
timestamp fields: the two passes differ only in the `now` argument, and
every output except the condition's `lastTransitionTime` is unchanged. -/
theorem mcpserver_reconcile_idempotent (env : MCPServerEnv) (nspace t1 t2 : List Char) :
    (reconcileMCPServer env nspace t1).toolsJson = (reconcileMCPServer env nspace t2).toolsJson ∧
    (reconcileMCPServer env nspace t1).promptsJson = (reconcileMCPServer env nspace t2).promptsJson ∧
    (reconcileMCPServer env nspace t1).resourcesJson =
      (reconcileMCPServer env nspace t2).resourcesJson ∧
    (reconcileMCPServer env nspace t1).readyReplicas =
      (reconcileMCPServer env nspace t2).readyReplicas ∧
    (reconcileMCPServer env nspace t1).toolCount = (reconcileMCPServer env nspace t2).toolCount ∧
    (reconcileMCPServer env nspace t1).promptCount =
      (reconcileMCPServer env nspace t2).promptCount ∧
    (reconcileMCPServer env nspace t1).resourceCount =
      (reconcileMCPServer env nspace t2).resourceCount ∧
    eraseTime (reconcileMCPServer env nspace t1).condition =
      eraseTime (reconcileMCPServer env nspace t2).condition := by
  refine ⟨rfl, rfl, rfl, rfl, rfl, rfl, rfl, ?_⟩
  simp only [reconcileMCPServer, eraseTime, mkCondition]
  by_cases h : 0 < env.deployReadyReplicas.getD 0 <;> simp [h]

/-- C7 counterexample: an MCPTool spec with `name` set to `"x"` and `tools`
set to the empty list has BOTH fields set, yet `validate_tool_mode`
accepts it (an empty list is falsy in Python), contradicting the claim
that validation fails whenever both `name` and `tools` are set. -/
theorem validateToolMode_both_set_passes :
    validateToolMode (some (chars "x")) (some []) = true ∧
    (some (chars "x") : Option (List Char)) ≠ none ∧
    (some [] : Option (List ToolEntryM)) ≠ none := by
  refine ⟨by decide, by decide, by decide⟩

/-- C7 (amended): `validate_tool_mode` fails whenever both `name` and
`tools` are truthy (non-null and non-empty) and whenever neither is
truthy; a spec passes the validator if and only if exactly one of the two
is truthy — a `None`/empty `name` and a `None`/empty `tools` list both
count as unset. -/
theorem validateToolMode_exactly_one (name : Option (List Char))
    (tools : Option (List ToolEntryM)) :
    validateToolMode name tools = true ↔
      ((truthyOptStr name = true ∧ truthyOptList tools = false) ∨
       (truthyOptStr name = false ∧ truthyOptList tools = true)) := by
  unfold validateToolMode
  cases h1 : truthyOptStr name <;> cases h2 : truthyOptList tools <;> simp

/-- C2 counterexample: a successful MCPPrompt create/update pass (writes
`validated = true`) and a successful MCPResource create/update pass
(writes `ready = true`) patch no MCPServer at all — even though an
MCPServer named `srv` exists in the namespace — so the claim that all
three reconcilers invoke the Cross-Resource Trigger on success is false. -/
theorem prompt_resource_success_without_trigger :
    (reconcileMCPPrompt
        { name := chars "p", template := chars "Hello {{user}}",
          vars := [{ name := chars "user" }] }).validated = true ∧
    (reconcileMCPPrompt
        { name := chars "p", template := chars "Hello {{user}}",
          vars := [{ name := chars "user" }] }).serverPatches = [] ∧
    (reconcileMCPResource { svcExists := fun _ _ => true, servers := [chars "srv"] }
        { name := chars "r", operations := none,
          content := some { uri := chars "mem://r", text := some (chars "data"), blob := none } }
        (chars "ns")).ready = true ∧
    (reconcileMCPResource { svcExists := fun _ _ => true, servers := [chars "srv"] }
        { name := chars "r", operations := none,
          content := some { uri := chars "mem://r", text := some (chars "data"), blob := none } }
        (chars "ns")).serverPatches = [] := by
  refine ⟨by decide, by decide, by decide, by decide⟩

/-- C2 (amended): of the three dependency reconcilers, only the MCPTool
reconciler's successful create/update pass invokes the Cross-Resource
Trigger (listing the namespace's MCPServers and patching an annotation on
each of them); the MCPPrompt and MCPResource create/update reconcilers
never invoke it (their delete handlers do). -/
theorem crossResourceTrigger_only_mcptool :
    (∀ (env : TriggerEnv) (spec : MCPToolSpecM) (nspace : List Char),
        env.svcExists spec.service.name (effectiveNs spec.service.nspace nspace) = true →
        (reconcileMCPTool env spec nspace).ready = true ∧
        (reconcileMCPTool env spec nspace).serverPatches = env.servers) ∧
    (∀ spec : MCPPromptSpecM, (reconcileMCPPrompt spec).serverPatches = []) ∧
    (∀ (env : TriggerEnv) (spec : MCPResourceSpecM) (nspace : List Char),
        (reconcileMCPResource env spec nspace).serverPatches = []) := by
  refine ⟨fun env spec nspace h => ?_, reconcileMCPPrompt_patches_nil,
    reconcileMCPResource_patches_nil⟩
  unfold reconcileMCPTool
  rw [if_pos h]
  exact ⟨rfl, rfl⟩

/-- C2 witness: the amended theorem applied to a concrete MCPTool whose
service exists — the pass succeeds and patches exactly the namespace's
MCPServer list. -/
theorem crossResourceTrigger_only_mcptool_witness :
    (reconcileMCPTool { svcExists := fun _ _ => true, servers := [chars "s1", chars "s2"] }
        { name := some (chars "echo"),
          service := { name := chars "svc", nspace := none, port := 80, path := chars "/" },
          tools := none } (chars "ns")).ready = true ∧
    (reconcileMCPTool { svcExists := fun _ _ => true, servers := [chars "s1", chars "s2"] }
        { name := some (chars "echo"),
          service := { name := chars "svc", nspace := none, port := 80, path := chars "/" },
          tools := none } (chars "ns")).serverPatches = [chars "s1", chars "s2"] :=
  crossResourceTrigger_only_mcptool.1
    { svcExists := fun _ _ => true, servers := [chars "s1", chars "s2"] }
    { name := some (chars "echo"),
      service := { name := chars "svc", nspace := none, port := 80, path := chars "/" },
      tools := none } (chars "ns") (by decide)

/-- C5: for an MCPResource whose spec has `content` present, reconciliation
evaluates only the content — no service lookups happen and
`operationCount` is 0 even when `operations` is also set — and it succeeds
(`ContentValid`) iff `content.text` or `content.blob` is non-empty after
trimming, failing with `EmptyContent` otherwise. -/
theorem mcpresource_content_precedence (env : TriggerEnv) (spec : MCPResourceSpecM)
    (nspace : List Char) (c : InlineContentM) (hc : spec.content = some c) :
    (reconcileMCPResource env spec nspace).lookups = [] ∧
    (reconcileMCPResource env spec nspace).operationCount = 0 ∧
    (reconcileMCPResource env spec nspace).hasCondition = true ∧
    ((reconcileMCPResource env spec nspace).ready = true ↔
      (∃ t, c.text = some t ∧ pyStrip t ≠ []) ∨ (∃ b, c.blob = some b ∧ pyStrip b ≠ [])) ∧
    ((reconcileMCPResource env spec nspace).ready = true →
      (reconcileMCPResource env spec nspace).reason = chars "ContentValid") ∧
    ((reconcileMCPResource env spec nspace).ready = false →
      (reconcileMCPResource env spec nspace).reason = chars "EmptyContent") := by
  have hval : ((∃ t, c.text = some t ∧ pyStrip t ≠ []) ∨ (∃ b, c.blob = some b ∧ pyStrip b ≠ []))
      ↔ (truthyStripped c.text || truthyStripped c.blob) = true := by
    rw [Bool.or_eq_true, truthyStripped_iff, truthyStripped_iff]
  cases hv : truthyStripped c.text || truthyStripped c.blob <;>
    simp [reconcileMCPResource, hc, hv, hval]

/-- C5 witness: a concrete MCPResource carrying both non-empty inline text
content and a (nominally resolvable) operations list is evaluated
content-only: no lookups, `operationCount = 0`, success. -/
theorem mcpresource_content_precedence_witness :
    (reconcileMCPResource { svcExists := fun _ _ => true, servers := [] }
        { name := chars "r",
          operations := some
            [{ service := { name := chars "svc", nspace := none, port := 80, path := chars "/" } }],
          content := some { uri := chars "mem://r", text := some (chars " hello "), blob := none } }
        (chars "ns")).lookups = [] ∧
    (reconcileMCPResource { svcExists := fun _ _ => true, servers := [] }
        { name := chars "r",
          operations := some
            [{ service := { name := chars "svc", nspace := none, port := 80, path := chars "/" } }],
          content := some { uri := chars "mem://r", text := some (chars " hello "), blob := none } }
        (chars "ns")).operationCount = 0 ∧
    (reconcileMCPResource { svcExists := fun _ _ => true, servers := [] }
        { name := chars "r",
          operations := some
            [{ service := { name := chars "svc", nspace := none, port := 80, path := chars "/" } }],
          content := some { uri := chars "mem://r", text := some (chars " hello "), blob := none } }
        (chars "ns")).ready = true := by
  have h := mcpresource_content_precedence
    { svcExists := fun _ _ => true, servers := [] }
    { name := chars "r",
      operations := some
        [{ service := { name := chars "svc", nspace := none, port := 80, path := chars "/" } }],
      content := some { uri := chars "mem://r", text := some (chars " hello "), blob := none } }
    (chars "ns")
    { uri := chars "mem://r", text := some (chars " hello "), blob := none } rfl
  exact ⟨h.1, h.2.1, h.2.2.2.1.mpr (Or.inl ⟨chars " hello ", rfl, by decide⟩)⟩

/-- C6 counterexample: an MCPResource whose `operations` field is present
but the EMPTY list (and `content` absent) does not reach the
`OperationsValid` outcome the claim requires for a spec with every
reference resolvable (vacuously true here): the code falls through to a
defensive tail that writes `ready = false` with an empty `conditions`
list. -/
theorem mcpresource_empty_operations_falls_through :
    (reconcileMCPResource { svcExists := fun _ _ => true, servers := [] }
        { name := chars "r", operations := some [], content := none } (chars "ns")).ready = false ∧
    (reconcileMCPResource { svcExists := fun _ _ => true, servers := [] }
        { name := chars "r", operations := some [], content := none } (chars "ns")).reason ≠
      chars "OperationsValid" ∧
    (reconcileMCPResource { svcExists := fun _ _ => true, servers := [] }
        { name := chars "r", operations := some [], content := none }
        (chars "ns")).hasCondition = false := by
  refine ⟨by decide, by decide, by decide⟩

/-- C6 (amended): for an MCPResource with a present and NON-EMPTY
`operations` list and `content` absent, the reconciler resolves each
operation's service reference in order (namespace defaulting to the
MCPResource's own namespace), short-circuiting at the first unresolvable
reference with `ready = false`, reason `ServiceNotFound` and
`operationCount` equal to the TOTAL number of operations; if every
reference resolves it reports `ready = true`, reason `OperationsValid`,
`operationCount` = number of operations.  (A present-but-empty list
instead falls through to `ready = false` with no condition.) -/
theorem mcpresource_operations_validation (env : TriggerEnv) (spec : MCPResourceSpecM)
    (nspace : List Char) (ops : List ResourceOperationM)
    (hops : spec.operations = some ops) (hne : ops ≠ []) (hc : spec.content = none) :
    (reconcileMCPResource env spec nspace).operationCount = ops.length ∧
    (reconcileMCPResource env spec nspace).hasCondition = true ∧
    ((reconcileMCPResource env spec nspace).ready = true ↔
      ∀ op ∈ ops, env.svcExists op.service.name (effectiveNs op.service.nspace nspace) = true) ∧
    ((reconcileMCPResource env spec nspace).ready = true →
      (reconcileMCPResource env spec nspace).reason = chars "OperationsValid") ∧
    ((reconcileMCPResource env spec nspace).ready = false →
      (reconcileMCPResource env spec nspace).reason = chars "ServiceNotFound") ∧
    (reconcileMCPResource env spec nspace).lookups =
      ((ops.takeWhile fun op =>
          env.svcExists op.service.name (effectiveNs op.service.nspace nspace)) ++
        (ops.dropWhile fun op =>
          env.svcExists op.service.name (effectiveNs op.service.nspace nspace)).take 1).map
        (fun op => (op.service.name, effectiveNs op.service.nspace nspace)) := by
  obtain ⟨o, rest, rfl⟩ : ∃ o rest, ops = o :: rest := by
    cases ops with
    | nil => exact absurd rfl hne
    | cons o rest => exact ⟨o, rest, rfl⟩
  have hloop := checkOpsLoop_spec env nspace (o :: rest)
  cases hfail : (checkOpsLoop env nspace (o :: rest)).2 with
  | none =>
      have hall := hloop.2.mp hfail
      simp only [reconcileMCPResource, hops, hc]
      simp [hfail, hloop.1, hall]
      intro a ha
      exact hall a (List.mem_cons_of_mem _ ha)
  | some fk =>
      have hnotall : ¬ ∀ op ∈ o :: rest,
          env.svcExists op.service.name (effectiveNs op.service.nspace nspace) = true := by
        intro hall
        rw [hloop.2.mpr hall] at hfail
        exact Option.noConfusion hfail
      simp only [reconcileMCPResource, hops, hc]
      simp [hfail, hloop.1, hnotall]
      intro hhead
      push_neg at hnotall
      obtain ⟨op, hmem, hop⟩ := hnotall
      rcases List.mem_cons.mp hmem with rfl | hmem'
      · exact absurd hhead hop
      · exact ⟨op, hmem', Bool.eq_false_iff.mpr hop⟩

/-- C6 witness: three operations whose middle reference is unresolvable —
the pass fails with `ServiceNotFound`, reports `operationCount = 3` (the
total, not the one operation validated so far), and performed exactly the
first two lookups in order. -/
theorem mcpresource_operations_validation_witness :
    (reconcileMCPResource
        { svcExists := fun n _ => n ≠ chars "bad", servers := [] }
        { name := chars "r",
          operations := some
            [{ service := { name := chars "ok1", nspace := none, port := 80, path := chars "/" } },
             { service := { name := chars "bad", nspace := some (chars "other"), port := 80,
                            path := chars "/" } },
             { service := { name := chars "ok2", nspace := none, port := 80, path := chars "/" } }],
          content := none } (chars "ns")).operationCount = 3 ∧
    (reconcileMCPResource
        { svcExists := fun n _ => n ≠ chars "bad", servers := [] }
        { name := chars "r",
          operations := some
            [{ service := { name := chars "ok1", nspace := none, port := 80, path := chars "/" } },
             { service := { name := chars "bad", nspace := some (chars "other"), port := 80,
                            path := chars "/" } },
             { service := { name := chars "ok2", nspace := none, port := 80, path := chars "/" } }],
          content := none } (chars "ns")).ready = false ∧
    (reconcileMCPResource
        { svcExists := fun n _ => n ≠ chars "bad", servers := [] }
        { name := chars "r",
          operations := some
            [{ service := { name := chars "ok1", nspace := none, port := 80, path := chars "/" } },
             { service := { name := chars "bad", nspace := some (chars "other"), port := 80,
                            path := chars "/" } },
             { service := { name := chars "ok2", nspace := none, port := 80, path := chars "/" } }],
          content := none } (chars "ns")).reason = chars "ServiceNotFound" ∧
    (reconcileMCPResource
        { svcExists := fun n _ => n ≠ chars "bad", servers := [] }
        { name := chars "r",
          operations := some
            [{ service := { name := chars "ok1", nspace := none, port := 80, path := chars "/" } },
             { service := { name := chars "bad", nspace := some (chars "other"), port := 80,
                            path := chars "/" } },
             { service := { name := chars "ok2", nspace := none, port := 80, path := chars "/" } }],
          content := none } (chars "ns")).lookups =
      [(chars "ok1", chars "ns"), (chars "bad", chars "other")] := by
  have h := mcpresource_operations_validation
    { svcExists := fun n _ => n ≠ chars "bad", servers := [] }
    { name := chars "r",
      operations := some
        [{ service := { name := chars "ok1", nspace := none, port := 80, path := chars "/" } },
         { service := { name := chars "bad", nspace := some (chars "other"), port := 80,
                        path := chars "/" } },
         { service := { name := chars "ok2", nspace := none, port := 80, path := chars "/" } }],
      content := none } (chars "ns")
    [{ service := { name := chars "ok1", nspace := none, port := 80, path := chars "/" } },
     { service := { name := chars "bad", nspace := some (chars "other"), port := 80,
                    path := chars "/" } },
     { service := { name := chars "ok2", nspace := none, port := 80, path := chars "/" } }]
    rfl (List.cons_ne_nil _ _) rfl
  have hready : (reconcileMCPResource
      { svcExists := fun n _ => n ≠ chars "bad", servers := [] }
      { name := chars "r",
        operations := some
          [{ service := { name := chars "ok1", nspace := none, port := 80, path := chars "/" } },
           { service := { name := chars "bad", nspace := some (chars "other"), port := 80,
                          path := chars "/" } },
           { service := { name := chars "ok2", nspace := none, port := 80, path := chars "/" } }],
        content := none } (chars "ns")).ready = false := by
    rcases hb : (reconcileMCPResource
        { svcExists := fun n _ => n ≠ chars "bad", servers := [] }
        { name := chars "r",
          operations := some
            [{ service := { name := chars "ok1", nspace := none, port := 80, path := chars "/" } },
             { service := { name := chars "bad", nspace := some (chars "other"), port := 80,
                            path := chars "/" } },
             { service := { name := chars "ok2", nspace := none, port := 80, path := chars "/" } }],
          content := none } (chars "ns")).ready with _ | _
    · rfl
    · exact absurd
        (h.2.2.1.mp hb
          { service := { name := chars "bad", nspace := some (chars "other"), port := 80,
                         path := chars "/" } } (by decide)) (by decide)
  exact ⟨h.1, hready, h.2.2.2.2.1 hready, h.2.2.2.2.2.trans (by decide)⟩

/-- C8: the label-selector string renders each `matchLabels` entry as
`key=value` and each `matchExpressions` entry as `key in (v1,v2,...)`,
`key notin (...)`, bare `key` or `!key` according to its operator, all
fragments comma-joined; in particular the selector
`{matchLabels: {app: x}, matchExpressions: [{key: env, operator: In,
values: [dev, qa]}]}` renders as `app=x,env in (dev,qa)`. -/
theorem buildLabelSelector_renders (labels : List (List Char × List Char))
    (exprs : List LabelExprM)
    (h : ∀ e ∈ exprs,
      (e.op = chars "In" ∨ e.op = chars "NotIn" ∨ e.op = chars "Exists" ∨
        e.op = chars "DoesNotExist") ∧
      ((e.op = chars "In" ∨ e.op = chars "NotIn") → e.values ≠ none)) :
    buildLabelSelectorString labels exprs =
      some (List.intercalate (chars ",")
        ((labels.map fun kv => kv.1 ++ chars "=" ++ kv.2) ++ exprs.map renderExprSpec)) ∧
    buildLabelSelectorString [(chars "app", chars "x")]
        [{ key := chars "env", op := chars "In", values := some [chars "dev", chars "qa"] }] =
      some (chars "app=x,env in (dev,qa)") := by
  constructor
  · unfold buildLabelSelectorString
    rw [exprParts_eq exprs h, labelParts_eq_map]
    rfl
  · decide

/-- C8 witness: the rendering theorem applied to the concrete selector of
the claim, with the fully evaluated selector string. -/
theorem buildLabelSelector_renders_witness :
    buildLabelSelectorString [(chars "app", chars "x")]
        [{ key := chars "env", op := chars "In", values := some [chars "dev", chars "qa"] }] =
      some (chars "app=x,env in (dev,qa)") := by
  have h := (buildLabelSelector_renders [(chars "app", chars "x")]
    [{ key := chars "env", op := chars "In", values := some [chars "dev", chars "qa"] }]
    (by decide)).1
  exact h.trans (by decide)

/-- C10: every resolvable `tools.json` entry's endpoint is the PLAIN
concatenation of the cluster-DNS base endpoint and the (per-entry or
service) path, with no slash collapsing; for the path `//search//items`
the aggregated endpoint keeps the doubled slashes, unlike the
slash-collapsed `resolvedEndpoint` the MCPTool reconciler computes for
single-tool objects from the same base and path. -/
theorem aggregated_endpoint_no_collapse :
    (∀ (svcE : List Char → List Char → Bool) (nspace : List Char)
        (toolName : Option (List Char)) (ref : RawServiceRef) (schema : Option (List Char))
        (nm : List Char) (pt : Nat), ref.name = some nm → nm ≠ [] → ref.port = some pt →
        pt ≠ 0 → svcE nm (effectiveNs ref.nspace nspace) = true →
        resolveToolEntry svcE nspace toolName ref schema =
          some { name := toolName,
                 endpoint := serviceEndpoint nm (effectiveNs ref.nspace nspace) pt ++
                   ref.path.getD (chars "/"),
                 inputSchema := schema }) ∧
    (resolveToolEntry (fun _ _ => true) (chars "ns") (some (chars "t"))
        { name := some (chars "svc"), nspace := none, port := some 8080,
          path := some (chars "//search//items") } none).map (fun e => e.endpoint) =
      some (chars "http://svc.ns.svc.cluster.local:8080//search//items") ∧
    collapseResolve (chars "http://svc.ns.svc.cluster.local:8080" ++ chars "//search//items") =
      chars "http://svc.ns.svc.cluster.local:8080/search/items" ∧
    chars "http://svc.ns.svc.cluster.local:8080//search//items" ≠
      chars "http://svc.ns.svc.cluster.local:8080/search/items" := by
  refine ⟨?_, by decide, by decide, by decide⟩
  intro svcE nspace toolName ref schema nm pt hn hne hp hpt hs
  unfold resolveToolEntry
  rw [hn, hp]
  simp [hne, hpt, hs]

/-- C10 witness: the plain-concatenation equation applied to a concrete
reference whose path begins with a doubled slash. -/
theorem aggregated_endpoint_no_collapse_witness :
    resolveToolEntry (fun _ _ => true) (chars "ns") (some (chars "t"))
        { name := some (chars "svc"), nspace := none, port := some 8080,
          path := some (chars "//x") } none =
      some { name := some (chars "t"),
             endpoint := chars "http://svc.ns.svc.cluster.local:8080//x",
             inputSchema := none } := by
  have h := aggregated_endpoint_no_collapse.1 (fun _ _ => true) (chars "ns") (some (chars "t"))
    { name := some (chars "svc"), nspace := none, port := some 8080, path := some (chars "//x") }
    none (chars "svc") 8080 rfl (by decide) rfl (by decide) rfl
  exact h.trans (by decide)

/-- C1: in the MCPServer aggregation, the `tools.json` array is the
concatenation, over the label-selected MCPTool objects, of each object's
entries — a multi-tool object contributing one entry per `tools[]` element
resolved with the shared service block and that element's path, an entry
being silently omitted when the service name or port is missing/falsy or
the endpoint does not resolve — and `toolCount` equals the number of
resolved entries (the length of `tools.json`, not the number of MCPTool
objects); moreover for a multi-tool MCPTool whose service exists, the
MCPTool reconciler writes the bare base endpoint
`http://{svc}.{ns}.svc.cluster.local:{port}` with no path appended. -/
theorem mcpserver_multitool_aggregation :
    (∀ (env : MCPServerEnv) (nspace now : List Char),
        (reconcileMCPServer env nspace now).toolsJson =
          env.tools.flatMap (toolEntriesOf env.svcExists nspace) ∧
        (reconcileMCPServer env nspace now).toolCount =
          (env.tools.flatMap (toolEntriesOf env.svcExists nspace)).length) ∧
    (∀ (svcE : List Char → List Char → Bool) (nspace : List Char) (ts : RawToolSpec)
        (l : List RawToolEntry), ts.tools = some l → l ≠ [] →
        toolEntriesOf svcE nspace ts = l.filterMap fun te =>
          resolveToolEntry svcE nspace te.name
            { ts.service with path := some (te.path.getD (chars "/")) } te.inputSchema) ∧
    (∀ (svcE : List Char → List Char → Bool) (nspace : List Char)
        (tn : Option (List Char)) (ref : RawServiceRef) (sch : Option (List Char)),
        resolveToolEntry svcE nspace tn ref sch ≠ none →
        ∃ nm pt, ref.name = some nm ∧ nm ≠ [] ∧ ref.port = some pt ∧ pt ≠ 0 ∧
          svcE nm (effectiveNs ref.nspace nspace) = true) ∧
    (∀ (env : TriggerEnv) (spec : MCPToolSpecM) (nspace : List Char) (l : List ToolEntryM),
        spec.tools = some l → l ≠ [] →
        env.svcExists spec.service.name (effectiveNs spec.service.nspace nspace) = true →
        (reconcileMCPTool env spec nspace).resolvedEndpoint =
          some (serviceEndpoint spec.service.name (effectiveNs spec.service.nspace nspace)
            spec.service.port)) := by
  refine ⟨?_, ?_, ?_, ?_⟩
  · intro env nspace now
    have h := aggregateTools_eq env.svcExists nspace env.tools []
    exact ⟨h, by simp [reconcileMCPServer, h]⟩
  · intro svcE nspace ts l hts hl
    cases l with
    | nil => exact absurd rfl hl
    | cons e es => simp [toolEntriesOf, hts]
  · intro svcE nspace tn ref sch hne
    rcases hn : ref.name with _ | nm
    · exact absurd (by simp [resolveToolEntry, hn]) hne
    rcases hp : ref.port with _ | pt
    · exact absurd (by simp [resolveToolEntry, hn, hp]) hne
    by_cases htr : nm ≠ [] ∧ pt ≠ 0
    · by_cases hs : svcE nm (effectiveNs ref.nspace nspace) = true
      · exact ⟨nm, pt, rfl, htr.1, rfl, htr.2, hs⟩
      · exact absurd (by simp [resolveToolEntry, hn, hp, htr.1, htr.2, hs]) hne
    · exact absurd (by simp [resolveToolEntry, hn, hp, htr]) hne
  · intro env spec nspace l hts hl hsvc
    cases l with
    | nil => exact absurd rfl hl
    | cons e es =>
        unfold reconcileMCPTool
        rw [if_pos hsvc, hts]

/-- C1 witness: the spec's own example — one multi-tool MCPTool with
entries `a:/a` and `b:/b` sharing `service {svc, 80}` yields exactly the
two ConfigMap entries with endpoints `.../a` and `.../b`, `toolCount = 2`
(with 1 MCPTool object listed), and the MCPTool reconciler's own
`resolvedEndpoint` is the bare `http://svc.ns.svc.cluster.local:80`. -/
theorem mcpserver_multitool_aggregation_witness :
    (reconcileMCPServer
        { svcExists := fun _ _ => true,
          tools := [{ name := none,
                      service := { name := some (chars "svc"), nspace := none, port := some 80,
                                   path := none },
                      inputSchema := none,
                      tools := some [{ name := some (chars "a"), path := some (chars "/a"),
                                       inputSchema := none },
                                     { name := some (chars "b"), path := some (chars "/b"),
                                       inputSchema := none }] }],
          prompts := [], resources := [], deployReadyReplicas := none }
        (chars "ns") (chars "T")).toolsJson =
      [{ name := some (chars "a"), endpoint := chars "http://svc.ns.svc.cluster.local:80/a",
         inputSchema := none },
       { name := some (chars "b"), endpoint := chars "http://svc.ns.svc.cluster.local:80/b",
         inputSchema := none }] ∧
    (reconcileMCPServer
        { svcExists := fun _ _ => true,
          tools := [{ name := none,
                      service := { name := some (chars "svc"), nspace := none, port := some 80,
                                   path := none },
                      inputSchema := none,
                      tools := some [{ name := some (chars "a"), path := some (chars "/a"),
                                       inputSchema := none },
                                     { name := some (chars "b"), path := some (chars "/b"),
                                       inputSchema := none }] }],
          prompts := [], resources := [], deployReadyReplicas := none }
        (chars "ns") (chars "T")).toolCount = 2 ∧
    (reconcileMCPTool { svcExists := fun _ _ => true, servers := [] }
        { name := none,
          service := { name := chars "svc", nspace := none, port := 80, path := chars "/" },
          tools := some [{ name := chars "a", path := chars "/a" },
                         { name := chars "b", path := chars "/b" }] }
        (chars "ns")).resolvedEndpoint = some (chars "http://svc.ns.svc.cluster.local:80") := by
  refine ⟨?_, ?_, ?_⟩
  · exact ((mcpserver_multitool_aggregation.1
      { svcExists := fun _ _ => true,
        tools := [{ name := none,
                    service := { name := some (chars "svc"), nspace := none, port := some 80,
                                 path := none },
                    inputSchema := none,
                    tools := some [{ name := some (chars "a"), path := some (chars "/a"),
                                     inputSchema := none },
                                   { name := some (chars "b"), path := some (chars "/b"),
                                     inputSchema := none }] }],
        prompts := [], resources := [], deployReadyReplicas := none }
      (chars "ns") (chars "T")).1).trans (by decide)
  · exact ((mcpserver_multitool_aggregation.1
      { svcExists := fun _ _ => true,
        tools := [{ name := none,
                    service := { name := some (chars "svc"), nspace := none, port := some 80,
                                 path := none },
                    inputSchema := none,
                    tools := some [{ name := some (chars "a"), path := some (chars "/a"),
                                     inputSchema := none },
                                   { name := some (chars "b"), path := some (chars "/b"),
                                     inputSchema := none }] }],
        prompts := [], resources := [], deployReadyReplicas := none }
      (chars "ns") (chars "T")).2).trans (by decide)
  · exact (mcpserver_multitool_aggregation.2.2.2
      { svcExists := fun _ _ => true, servers := [] }
      { name := none,
        service := { name := chars "svc", nspace := none, port := 80, path := chars "/" },
        tools := some [{ name := chars "a", path := chars "/a" },
                       { name := chars "b", path := chars "/b" }] }
      (chars "ns")
      [{ name := chars "a", path := chars "/a" }, { name := chars "b", path := chars "/b" }]
      rfl (List.cons_ne_nil _ _) rfl).trans (by decide)

/-- C3: the MCPPrompt reconciler sets `validated = true` iff the set of
names matched by the `\x7b\x7b([a-zA-Z0-9_]+)\x7d\x7d` pattern in the
template equals the set of declared variable names exactly; when the
template references undeclared names it stops with reason
`UndeclaredVariables` (without also checking for unused variables) and the
message lists the offending names sorted lexicographically, comma-joined;
only when there are no undeclared names and some declared name is unused
does it report `UnusedVariables` with the same sorted-list convention. -/
theorem mcpprompt_variable_symmetry (spec : MCPPromptSpecM) :
    ((reconcileMCPPrompt spec).validated = true ↔
      (extractTemplateVariables spec.template).toFinset =
        (spec.vars.map fun v => v.name).toFinset) ∧
    ((∃ v ∈ extractTemplateVariables spec.template, v ∉ spec.vars.map fun v => v.name) →
      (reconcileMCPPrompt spec).reason = chars "UndeclaredVariables" ∧
      (reconcileMCPPrompt spec).message = chars "Template uses undeclared variables: " ++
        joinCommaSpace (sortNames
          ((extractTemplateVariables spec.template).filter
            (fun v => !((spec.vars.map fun v => v.name).contains v))).dedup)) ∧
    (((∀ v ∈ extractTemplateVariables spec.template, v ∈ spec.vars.map fun v => v.name) ∧
        (∃ v ∈ spec.vars.map fun v => v.name, v ∉ extractTemplateVariables spec.template)) →
      (reconcileMCPPrompt spec).reason = chars "UnusedVariables" ∧
      (reconcileMCPPrompt spec).message = chars "Declared variables not used in template: " ++
        joinCommaSpace (sortNames
          ((spec.vars.map fun v => v.name).filter
            (fun v => !((extractTemplateVariables spec.template).contains v))).dedup)) := by
  have hfil : ∀ l m : List (List Char),
      (l.filter (fun v => !(m.contains v)) = []) ↔ ∀ v ∈ l, v ∈ m := by
    intro l m
    rw [List.filter_eq_nil_iff]
    constructor
    · intro h v hv
      have hb := h v hv
      simpa [List.contains] using hb
    · intro h v hv
      simpa [List.contains] using h v hv
  have hex : ∀ l m : List (List Char), l.filter (fun v => !(m.contains v)) ≠ [] →
      ∃ v ∈ l, v ∉ m := by
    intro l m hne
    obtain ⟨v, hv⟩ := List.exists_mem_of_ne_nil _ hne
    rw [List.mem_filter] at hv
    refine ⟨v, hv.1, ?_⟩
    simpa [List.contains] using hv.2
  by_cases hu : (extractTemplateVariables spec.template).filter
      (fun v => !((spec.vars.map fun v => v.name).contains v)) = []
  · by_cases hw : (spec.vars.map fun v => v.name).filter
        (fun v => !((extractTemplateVariables spec.template).contains v)) = []
    · have hrec : reconcileMCPPrompt spec =
          { validated := true, reason := chars "TemplateValid",
            message := chars "Template and variables validated successfully",
            serverPatches := [] } := by
        simp only [reconcileMCPPrompt]
        rw [hu, if_neg (by simp), hw, if_neg (by simp)]
      have heq : (extractTemplateVariables spec.template).toFinset =
          (spec.vars.map fun v => v.name).toFinset := by
        apply Finset.ext
        intro v
        simp only [List.mem_toFinset]
        exact ⟨fun hv => (hfil _ _).mp hu v hv, fun hv => (hfil _ _).mp hw v hv⟩
      refine ⟨by rw [hrec]; exact ⟨fun _ => heq, fun _ => rfl⟩, ?_, ?_⟩
      · rintro ⟨v, hv, hnot⟩
        exact absurd ((hfil _ _).mp hu v hv) hnot
      · rintro ⟨_, v, hv, hnot⟩
        exact absurd ((hfil _ _).mp hw v hv) hnot
    · have hrec : reconcileMCPPrompt spec =
          { validated := false, reason := chars "UnusedVariables",
            message := chars "Declared variables not used in template: " ++
              joinCommaSpace (sortNames
                ((spec.vars.map fun v => v.name).filter
                  (fun v => !((extractTemplateVariables spec.template).contains v))).dedup),
            serverPatches := [] } := by
        simp only [reconcileMCPPrompt]
        rw [hu, if_neg (by simp), if_pos hw]
      obtain ⟨v, hv, hnot⟩ := hex _ _ hw
      have hneq : (extractTemplateVariables spec.template).toFinset ≠
          (spec.vars.map fun v => v.name).toFinset := by
        intro heq
        have hm := Finset.ext_iff.mp heq v
        rw [List.mem_toFinset, List.mem_toFinset] at hm
        exact absurd (hm.mpr hv) hnot
      refine ⟨?_, ?_, fun _ => by rw [hrec]; exact ⟨rfl, rfl⟩⟩
      · rw [hrec]
        simp only [Bool.false_eq_true, false_iff]
        exact hneq
      · rintro ⟨w, hwmem, hwnot⟩
        exact absurd ((hfil _ _).mp hu w hwmem) hwnot
  · have hrec : reconcileMCPPrompt spec =
        { validated := false, reason := chars "UndeclaredVariables",
          message := chars "Template uses undeclared variables: " ++
            joinCommaSpace (sortNames
              ((extractTemplateVariables spec.template).filter
                (fun v => !((spec.vars.map fun v => v.name).contains v))).dedup),
          serverPatches := [] } := by
      simp only [reconcileMCPPrompt]
      rw [if_pos hu]
    obtain ⟨v, hv, hnot⟩ := hex _ _ hu
    have hneq : (extractTemplateVariables spec.template).toFinset ≠
        (spec.vars.map fun v => v.name).toFinset := by
      intro heq
      have hm := Finset.ext_iff.mp heq v
      rw [List.mem_toFinset, List.mem_toFinset] at hm
      exact absurd (hm.mp hv) hnot
    refine ⟨?_, fun _ => by rw [hrec]; exact ⟨rfl, rfl⟩, ?_⟩
    · rw [hrec]
      simp only [Bool.false_eq_true, false_iff]
      exact hneq
    · rintro ⟨hall, _⟩
      exact absurd ((hfil _ _).mpr hall) hu

/-- C3 witness: template `{{z}} {{b}} {{a}}` with only `a` declared — the
pass stops at `UndeclaredVariables` and the message lists `b, z` sorted
lexicographically, comma-joined; `validated` is false. -/
theorem mcpprompt_variable_symmetry_witness :
    (reconcileMCPPrompt
      { name := chars "p", template := chars "{{z}} {{b}} {{a}}",
        vars := [{ name := chars "a" }] }).reason = chars "UndeclaredVariables" ∧
    (reconcileMCPPrompt
      { name := chars "p", template := chars "{{z}} {{b}} {{a}}",
        vars := [{ name := chars "a" }] }).message =
      chars "Template uses undeclared variables: b, z" ∧
    (reconcileMCPPrompt
      { name := chars "p", template := chars "{{z}} {{b}} {{a}}",
        vars := [{ name := chars "a" }] }).validated = false := by
  have h := mcpprompt_variable_symmetry
    { name := chars "p", template := chars "{{z}} {{b}} {{a}}", vars := [{ name := chars "a" }] }
  refine ⟨(h.2.1 ?_).1, ((h.2.1 ?_).2).trans (by decide), ?_⟩
  · exact ⟨chars "z", by decide, by decide⟩
  · exact ⟨chars "z", by decide, by decide⟩
  · cases hb : (reconcileMCPPrompt
        { name := chars "p", template := chars "{{z}} {{b}} {{a}}",
          vars := [{ name := chars "a" }] }).validated with
    | false => rfl
    | true => exact absurd (h.1.mp hb) (by decide)

/-!  ## Slash-collapsing lemmas for claim C4  -/

theorem step_length_le (s : List Char) : (step s).length ≤ s.length := by
  induction s using step.induct with
  | case1 => simp [step]
  | case2 c => simp [step]
  | case3 c d rest h ih =>
      rw [step, if_pos h]
      simp only [List.length_cons]
      omega
  | case4 c d rest h ih =>
      rw [step, if_neg h]
      simp only [List.length_cons] at ih ⊢
      omega

theorem step_length_lt (s : List Char) (hd : hasDbl s = true) :
    (step s).length < s.length := by
  induction s using step.induct with
  | case1 => simp [hasDbl] at hd
  | case2 c => simp [hasDbl] at hd
  | case3 c d rest h ih =>
      rw [step, if_pos h]
      have := step_length_le rest
      simp only [List.length_cons]
      omega
  | case4 c d rest h ih =>
      rw [hasDbl, if_neg h] at hd
      rw [step, if_neg h]
      have := ih hd
      simp only [List.length_cons] at this ⊢
      omega

theorem dedupSlash_step (s : List Char) : ∀ b, dedupSlash b (step s) = dedupSlash b s := by
  induction s using step.induct with
  | case1 => intro b; rfl
  | case2 c => intro b; rfl
  | case3 c d rest h ih =>
      obtain ⟨rfl, rfl⟩ := h
      intro b
      rw [step, if_pos ⟨rfl, rfl⟩]
      cases b <;> simp [dedupSlash, ih]
  | case4 c d rest h ih =>
      intro b
      rw [step, if_neg h]
      by_cases hc : c = '/' <;> cases b <;> simp [dedupSlash, hc, ih]

theorem dedupSlash_cons_slash_false (w : List Char) :
    dedupSlash false ('/' :: w) = '/' :: dedupSlash true w := by
  simp [dedupSlash]

theorem dedupSlash_cons_slash_true (w : List Char) :
    dedupSlash true ('/' :: w) = dedupSlash true w := by
  simp [dedupSlash]

theorem dedupSlash_cons_ne (b : Bool) (c : Char) (w : List Char) (h : c ≠ '/') :
    dedupSlash b (c :: w) = c :: dedupSlash false w := by
  simp [dedupSlash, h]

theorem dedupSlash_id (s : List Char) (hd : hasDbl s = false) :
    ∀ b, (b = false ∨ s.head? ≠ some '/') → dedupSlash b s = s := by
  induction s using hasDbl.induct with
  | case1 => intro b _; rfl
  | case2 c =>
      intro b hb
      by_cases hc : c = '/'
      · subst hc
        rcases hb with rfl | hne
        · simp [dedupSlash]
        · simp at hne
      · cases b <;> simp [dedupSlash, hc]
  | case3 c d rest h =>
      rw [hasDbl, if_pos h] at hd
      exact absurd hd (by simp)
  | case4 c d rest h ih =>
      rw [hasDbl, if_neg h] at hd
      intro b hb
      by_cases hc : c = '/'
      · subst hc
        rcases hb with rfl | hne
        · have hdne : d ≠ '/' := fun hdd => h ⟨rfl, hdd⟩
          rw [dedupSlash_cons_slash_false, ih hd true (Or.inr (by simp [hdne]))]
        · simp at hne
      · rw [dedupSlash_cons_ne b c _ hc, ih hd false (Or.inl rfl)]

theorem loopN_eq_dedupSlash : ∀ (n : Nat) (s : List Char), s.length ≤ n →
    loopN n s = dedupSlash false s := by
  intro n
  induction n with
  | zero =>
      intro s hs
      have hnil : s = [] := List.eq_nil_of_length_eq_zero (Nat.le_zero.mp hs)
      subst hnil; rfl
  | succ n ih =>
      intro s hs
      by_cases hd : hasDbl s = true
      · rw [loopN, if_pos hd]
        have hlt := step_length_lt s hd
        rw [ih (step s) (by omega), dedupSlash_step]
      · have hd' : hasDbl s = false := Bool.eq_false_iff.mpr hd
        rw [loopN, if_neg hd, dedupSlash_id s hd' false (Or.inl rfl)]

theorem dedupSlash_append : ∀ a : List Char, a ≠ [] → (∀ c ∈ a, c ≠ '/') →
    ∀ (b : Bool) (x : List Char), dedupSlash b (a ++ x) = a ++ dedupSlash false x := by
  intro a
  induction a with
  | nil => intro h; exact absurd rfl h
  | cons y a' ih =>
      intro _ hsl b x
      have hy : y ≠ '/' := hsl y (List.mem_cons_self _ _)
      cases a' with
      | nil => simp [dedupSlash_cons_ne b y x hy]
      | cons z a'' =>
          have hrec := ih (List.cons_ne_nil _ _)
            (fun c hc => hsl c (List.mem_cons_of_mem _ hc)) false x
          rw [List.cons_append, dedupSlash_cons_ne b y _ hy, hrec]
          simp

theorem restoreF_canon : ∀ (n : Nat) (s : List Char), s.length ≤ n →
    restoreF n s = restoreF s.length s := by
  intro n
  induction n using Nat.strong_induction_on with
  | _ n ih =>
      intro s hs
      cases n with
      | zero =>
          have hnil : s = [] := List.eq_nil_of_length_eq_zero (Nat.le_zero.mp hs)
          subst hnil; rfl
      | succ m =>
          cases s with
          | nil => rfl
          | cons c rest =>
              simp only [List.length_cons] at hs
              by_cases hp : (c :: rest).take 11 = PL
              · have hdlen : ((c :: rest).drop 11).length = rest.length + 1 - 11 := by
                  simp
                rw [restoreF, if_pos hp]
                conv_rhs => simp only [List.length_cons]; rw [restoreF, if_pos hp]
                rw [ih m (Nat.lt_succ_self m) ((c :: rest).drop 11) (by omega),
                    ih rest.length (by omega) ((c :: rest).drop 11) (by omega)]
              · rw [restoreF, if_neg hp]
                conv_rhs => simp only [List.length_cons]; rw [restoreF, if_neg hp]
                rw [ih m (Nat.lt_succ_self m) rest (by omega)]

theorem restoreF_cons_PL (n : Nat) (y : List Char) :
    restoreF (n + 1) (PL ++ y) = ':' :: '/' :: '/' :: restoreF n y := by
  simp only [PL, List.cons_append, List.nil_append]
  rw [restoreF, if_pos (by simp [PL])]
  simp

theorem restore_PL (y : List Char) : restore (PL ++ y) = ':' :: '/' :: '/' :: restore y := by
  unfold restore
  have h1 : (PL ++ y).length = (y.length + 10) + 1 := by simp [PL]
  rw [h1, restoreF_cons_PL, restoreF_canon (y.length + 10) y (by omega)]

theorem restore_cons (c : Char) (z : List Char) (h : c ≠ '_') :
    restore (c :: z) = c :: restore z := by
  have hp : (c :: z).take 11 ≠ PL := by
    rw [List.take_succ_cons]
    intro he
    rw [show PL = '_' :: ['_', '_', 'P', 'R', 'O', 'T', 'O', '_', '_', '_'] from rfl] at he
    injection he with h1 _
    exact h h1
  unfold restore
  simp only [List.length_cons]
  rw [restoreF, if_neg hp]

theorem noUnderscore_dedupSlash : ∀ (s : List Char) (b : Bool), '_' ∉ s →
    '_' ∉ dedupSlash b s := by
  intro s
  induction s with
  | nil => intro b _; simp [dedupSlash]
  | cons c rest ih =>
      intro b h
      have hc : ('_' : Char) ≠ c := fun he => h (he ▸ List.mem_cons_self _ _)
      have ht : '_' ∉ rest := fun hm => h (List.mem_cons_of_mem _ hm)
      by_cases hcs : c = '/'
      · subst hcs
        cases b
        · rw [dedupSlash_cons_slash_false]
          intro hm
          rcases List.mem_cons.mp hm with he | hm'
          · exact absurd he (by decide)
          · exact ih true ht hm'
        · rw [dedupSlash_cons_slash_true]
          exact ih true ht
      · rw [dedupSlash_cons_ne b c _ hcs]
        intro hm
        rcases List.mem_cons.mp hm with he | hm'
        · exact hc he
        · exact ih false ht hm'

theorem restore_id : ∀ z : List Char, '_' ∉ z → restore z = z := by
  intro z
  induction z with
  | nil => intro _; rfl
  | cons c z' ih =>
      intro h
      have hc : c ≠ '_' := fun he => h (he ▸ List.mem_cons_self _ _)
      rw [restore_cons c z' hc, ih fun hm => h (List.mem_cons_of_mem _ hm)]

theorem protect_cons (c d e : Char) (r : List Char) (h : ¬(c = ':' ∧ d = '/' ∧ e = '/')) :
    protect (c :: d :: e :: r) = c :: protect (d :: e :: r) := by
  rw [protect, if_neg h]

theorem restoreCollapseProtect : ∀ (n : Nat) (s : List Char), s.length ≤ n → ∀ b, '_' ∉ s →
    restore (dedupSlash b (protect s)) = protoAux b s := by
  intro n
  induction n with
  | zero =>
      intro s hs b _
      have hnil : s = [] := List.eq_nil_of_length_eq_zero (Nat.le_zero.mp hs)
      subst hnil; rfl
  | succ n ih =>
      intro s hs b hinv
      rcases s with _ | ⟨c, s1⟩
      · rfl
      rcases s1 with _ | ⟨d, s2⟩
      · rw [show protect [c] = [c] from rfl,
            restore_id _ (noUnderscore_dedupSlash _ b hinv)]
        rfl
      rcases s2 with _ | ⟨e, rest⟩
      · rw [show protect [c, d] = [c, d] from rfl,
            restore_id _ (noUnderscore_dedupSlash _ b hinv)]
        rfl
      by_cases hpro : c = ':' ∧ d = '/' ∧ e = '/'
      · obtain ⟨rfl, rfl, rfl⟩ := hpro
        have hlen : rest.length ≤ n := by
          simp only [List.length_cons] at hs; omega
        have hinvr : '_' ∉ rest := fun hm =>
          hinv (List.mem_cons_of_mem _ (List.mem_cons_of_mem _ (List.mem_cons_of_mem _ hm)))
        have hp1 : protect (':' :: '/' :: '/' :: rest) = PL ++ protect rest := by
          rw [protect, if_pos ⟨rfl, rfl, rfl⟩]
        rw [hp1, dedupSlash_append PL (by decide) (by decide) b (protect rest), restore_PL,
            ih rest hlen false hinvr]
        conv_rhs => rw [protoAux, if_pos ⟨rfl, rfl, rfl⟩]
      · have hinvr : '_' ∉ d :: e :: rest := fun hm => hinv (List.mem_cons_of_mem _ hm)
        have hlen : (d :: e :: rest).length ≤ n := by
          simp only [List.length_cons] at hs ⊢; omega
        by_cases hsl : c = '/'
        · subst hsl
          have hp1 : protect ('/' :: d :: e :: rest) = '/' :: protect (d :: e :: rest) :=
            protect_cons _ _ _ _ (fun hx => absurd hx.1 (by decide))
          rw [hp1]
          cases b
          · rw [dedupSlash_cons_slash_false, restore_cons _ _ (by decide),
                ih (d :: e :: rest) hlen true hinvr]
            conv_rhs => rw [protoAux, if_neg hpro, if_pos rfl, if_neg (by decide)]
          · rw [dedupSlash_cons_slash_true, ih (d :: e :: rest) hlen true hinvr]
            conv_rhs => rw [protoAux, if_neg hpro, if_pos rfl, if_pos rfl]
        · have hc_ : c ≠ '_' := fun he => hinv (he ▸ List.mem_cons_self _ _)
          rw [protect_cons c d e rest hpro, dedupSlash_cons_ne b c _ hsl,
              restore_cons c _ hc_, ih (d :: e :: rest) hlen false hinvr]
          conv_rhs => rw [protoAux, if_neg hpro, if_neg hsl]

theorem collapseResolve_eq_protoAux (s : List Char) (h : '_' ∉ s) :
    collapseResolve s = protoAux false s := by
  unfold collapseResolve
  rw [loopN_eq_dedupSlash (protect s).length (protect s) (Nat.le_refl _)]
  exact restoreCollapseProtect s.length s (Nat.le_refl _) false h

/-- C4 counterexample: for a single-tool MCPTool whose service path is
`/a://b` (the path pattern `^/.*$` admits it), the reconciler's resolved
endpoint keeps the second `://` intact — the implementation's
placeholder substitution protects EVERY occurrence of `://` — whereas
collapsing that protects only the FIRST occurrence, as the claim words it,
would give `.../a:/b`; the two disagree at this input. -/
theorem single_tool_slash_collapse_counterexample :
    (reconcileMCPTool { svcExists := fun _ _ => true, servers := [] }
        { name := some (chars "t"),
          service := { name := chars "svc", nspace := none, port := 8080,
                       path := chars "/a://b" },
          tools := none } (chars "ns")).resolvedEndpoint =
      some (chars "http://svc.ns.svc.cluster.local:8080/a://b") ∧
    protectFirstCollapse (serviceEndpoint (chars "svc") (chars "ns") 8080 ++ chars "/a://b") =
      chars "http://svc.ns.svc.cluster.local:8080/a:/b" ∧
    (reconcileMCPTool { svcExists := fun _ _ => true, servers := [] }
        { name := some (chars "t"),
          service := { name := chars "svc", nspace := none, port := 8080,
                       path := chars "/a://b" },
          tools := none } (chars "ns")).resolvedEndpoint ≠
      some (protectFirstCollapse
        (serviceEndpoint (chars "svc") (chars "ns") 8080 ++ chars "/a://b")) := by
  refine ⟨by decide, by decide, by decide⟩

/-- C4 (amended): for every single-tool MCPTool whose referenced service
exists, the resolved endpoint equals the base endpoint with `service.path`
appended and then every run of consecutive `/` collapsed to a single `/`,
except that EVERY occurrence of the `://` separator (not only the first)
is protected from collapsing — stated here for endpoints and paths that
contain no underscore, since the implementation realises the protection
with the underscore placeholder `___PROTO___` and deviates on inputs
containing that placeholder. -/
theorem single_tool_slash_collapse (env : TriggerEnv) (spec : MCPToolSpecM) (nspace : List Char)
    (hmode : truthyOptList spec.tools = false)
    (hsvc : env.svcExists spec.service.name (effectiveNs spec.service.nspace nspace) = true)
    (hb : '_' ∉ serviceEndpoint spec.service.name (effectiveNs spec.service.nspace nspace)
        spec.service.port)
    (hp : '_' ∉ spec.service.path) :
    (reconcileMCPTool env spec nspace).resolvedEndpoint =
      some (protoAux false (serviceEndpoint spec.service.name
        (effectiveNs spec.service.nspace nspace) spec.service.port ++ spec.service.path)) := by
  have hnu : '_' ∉ serviceEndpoint spec.service.name (effectiveNs spec.service.nspace nspace)
      spec.service.port ++ spec.service.path := by
    intro hm
    rcases List.mem_append.mp hm with hm1 | hm2
    · exact hb hm1
    · exact hp hm2
  rcases ht : spec.tools with _ | l
  · simp only [reconcileMCPTool, ht]
    rw [if_pos hsvc]
    simp only []
    rw [collapseResolve_eq_protoAux _ hnu]
  · cases l with
    | nil =>
        simp only [reconcileMCPTool, ht]
        rw [if_pos hsvc]
        simp only []
        rw [collapseResolve_eq_protoAux _ hnu]
    | cons x xs =>
        rw [ht] at hmode
        simp [truthyOptList] at hmode

/-- C4 witness: the amended collapse equation applied to the spec's own
example — base `http://svc.ns.svc.cluster.local:8080` and path
`//search//items` resolve to the collapsed
`http://svc.ns.svc.cluster.local:8080/search/items`, scheme slashes
untouched. -/
theorem single_tool_slash_collapse_witness :
    (reconcileMCPTool { svcExists := fun _ _ => true, servers := [] }
        { name := some (chars "echo"),
          service := { name := chars "svc", nspace := none, port := 8080,
                       path := chars "//search//items" },
          tools := none } (chars "ns")).resolvedEndpoint =
      some (chars "http://svc.ns.svc.cluster.local:8080/search/items") := by
  have h := single_tool_slash_collapse { svcExists := fun _ _ => true, servers := [] }
    { name := some (chars "echo"),
      service := { name := chars "svc", nspace := none, port := 8080,
                   path := chars "//search//items" },
      tools := none } (chars "ns") (by decide) rfl (by decide) (by decide)
  exact h.trans (by decide)

/-- C7 witness: a spec with a truthy `name` and no `tools` passes the
validator, by the exactly-one-truthy characterisation. -/
theorem validateToolMode_exactly_one_witness :
    validateToolMode (some (chars "x")) (none : Option (List ToolEntryM)) = true :=
  (validateToolMode_exactly_one (some (chars "x")) none).mpr (Or.inl ⟨by decide, by decide⟩)
